import Mathlib

/-!
Verification of `farm/modeling/prediction_head.py`: a shallow embedding of
the prediction-head operations (text classification, token classification,
masked-token LM head, question answering) and proofs about them.

Tensors are embedded as (nested) lists; batched numeric values as `ℚ`;
the per-element cross-entropy term `-log softmax(x)[t]` is kept abstract as
a parameter `ce : List ℚ → ℤ → ℚ`, since every claim proved here concerns
the surrounding control structure (masking, reshaping, averaging, index
arithmetic), not the transcendental function itself.  In-place tensor
mutation (`clamp_`) is made explicit: the embedded function returns the
final state of the mutated tensors alongside its result.
-/

/-- Embedding of `torch.nn.CrossEntropyLoss(weight?, reduction="none", ignore_index)`
applied elementwise: positions whose target equals `ignore_index` get loss
`0`; otherwise the per-element loss is `w[target] * ce(input, target)`
(weight `1` when no weight vector is given). -/
def crossEntropyNone (ce : List ℚ → ℤ → ℚ) (weight : Option (List ℚ))
    (ignore_index : ℤ) (input : List (List ℚ)) (target : List ℤ) : List ℚ :=
  List.zipWith
    (fun l t =>
      if t = ignore_index then 0
      else (match weight with
            | some w => (w.get? t.toNat).getD 1
            | none => 1) * ce l t)
    input target

/-- Arithmetic mean of a list of rationals (`torch.mean` over one axis;
the empty case never arises in the uses below). -/
def listMean (xs : List ℚ) : ℚ := xs.sum / xs.length

/-- Embedding of `TokenClassificationHead.initial_token_only(seq, initial_mask)`:
`for init, s in zip(initial_mask, seq): if init: ret.append(s)`. -/
def initial_token_only (seq : List α) (initial_mask : List Bool) : List α :=
  (initial_mask.zip seq).foldr (fun p ret => if p.1 then p.2 :: ret else ret) []

/-- Spec-side reference for C4 (refinement): "the subsequence of elements at
positions where the flag is true, preserving original order". -/
def maskSubsequence : List α → List Bool → List α
  | _, [] => []
  | [], _ => []
  | x :: xs, b :: bs => if b then x :: maskSubsequence xs bs else maskSubsequence xs bs

/-- Python's `str.replace`, on character lists: replaces every
non-overlapping occurrence of `pattern`, scanning left to right.  The
`fuel` argument (instantiated with the list's length) only makes the
recursion structural so that the kernel can evaluate it. -/
def replaceChars (pattern replacement : List Char) : ℕ → List Char → List Char
  | _, [] => []
  | 0, l => l
  | fuel + 1, c :: rest =>
    if pattern ≠ [] ∧ pattern.isPrefixOf (c :: rest) then
      replacement ++ replaceChars pattern replacement fuel ((c :: rest).drop pattern.length)
    else
      c :: replaceChars pattern replacement fuel rest

/-- Python's `str.replace(pattern, replacement)` on strings.  The patterns
used in the source (`"##"`, `" ##"`) are never empty, so the empty-pattern
case (where Python would interleave) is irrelevant and returns `s`. -/
def pyReplace (s pattern replacement : String) : String :=
  ⟨replaceChars pattern.data replacement.data s.data.length s.data⟩

/-- A character span, `{"start": _, "end": _}` in the Python record
(`end` is a Lean keyword, rendered `stop`). -/
structure Span where
  start : ℕ
  stop : ℕ
  deriving DecidableEq, Repr

/-- Failure raised when `span["end"] = ...` runs on `span = None` (a Python `TypeError`). -/
inductive SpanError where
  | noneSpan
  deriving DecidableEq, Repr

deriving instance DecidableEq for Except

/-- The loop body of the span-reconstruction step of
`TokenClassificationHead.formatted_preds`, processing the remaining
`(token, offset, start_of_word)` triples with `span` the current open span.
On `start_of_word` the previous span (if any) is appended and a new span
`{offset, offset + len(token)}` is opened; otherwise the current span's end
becomes `offset + len(token.replace("##", ""))` — failing if no span is
open.  After the loop, `word_spans.append(span)` appends the current span
even when it is `None`. -/
def word_spans_aux : List (String × ℕ × Bool) → Option Span →
    Except SpanError (List (Option Span))
  | [], span => .ok [span]
  | (token, offset, start_of_word) :: rest, span =>
    if start_of_word then
      match span with
      | some sp => do
          let tail ← word_spans_aux rest (some ⟨offset, offset + token.length⟩)
          pure (some sp :: tail)
      | none => word_spans_aux rest (some ⟨offset, offset + token.length⟩)
    else
      match span with
      | some sp =>
          word_spans_aux rest
            (some ⟨sp.start, offset + (pyReplace token "##" "").length⟩)
      | none => .error .noneSpan

/-- Span reconstruction for one sample (`prediction_head.py:316-331`),
starting with `span = None`. -/
def word_spans (triples : List (String × ℕ × Bool)) :
    Except SpanError (List (Option Span)) :=
  word_spans_aux triples none

/-- The start offsets of the produced spans, skipping `None` entries. -/
def spanStarts (spans : List (Option Span)) : List ℕ :=
  spans.filterMap (fun o => o.map Span.start)

/-- The offsets of the word-initial tokens of a sample, in token order. -/
def initialOffsets (triples : List (String × ℕ × Bool)) : List ℕ :=
  triples.filterMap (fun t => if t.2.2 then some t.2.1 else none)

/-- Embedding of `TextClassificationHead.logits_to_loss(logits, label_ids)`:
`self.loss_fct(logits, label_ids.view(-1))` where `self.loss_fct` is
`CrossEntropyLoss(weight=class_weights?, reduction="none",
ignore_index=-100)`. -/
def textClassificationHead_logits_to_loss (ce : List ℚ → ℤ → ℚ)
    (class_weights : Option (List ℚ)) (logits : List (List ℚ))
    (label_ids : List ℤ) : List ℚ :=
  crossEntropyNone ce class_weights (-100) logits label_ids

/-- Embedding of `tensor.view(-1, n)` on a flat row-major buffer: consecutive chunks of
`n` entries become the rows.  The `fuel` argument (instantiated with the
buffer's length) only makes the recursion structural; torch additionally
requires the length to be divisible by `n`, which holds in every use
below. -/
def viewRows (n : ℕ) : ℕ → List α → List (List α)
  | _, [] => []
  | 0, l => [l]
  | fuel + 1, l => l.take n :: viewRows n fuel (l.drop n)

/-- Embedding of `BertLMHead.logits_to_loss(logits, lm_label_ids)`: the flat loss
`CrossEntropyLoss(reduction="none", ignore_index=-1)(logits.view(-1, V),
lm_label_ids.view(-1))` is reshaped with `.view(-1, batch_size)` — whose
rows, in row-major order, are consecutive chunks of `batch_size` flat
entries — and `.mean(dim=0)` takes the per-column mean. -/
def bertLMHead_logits_to_loss (ce : List ℚ → ℤ → ℚ)
    (logits : List (List (List ℚ))) (lm_label_ids : List (List ℤ)) : List ℚ :=
  let batch_size := lm_label_ids.length
  let masked_lm_loss := crossEntropyNone ce none (-1) logits.flatten lm_label_ids.flatten
  let rows := viewRows batch_size masked_lm_loss.length masked_lm_loss
  (List.range batch_size).map (fun j => listMean (rows.filterMap (·.get? j)))

/-- What the spec asserts `BertLMHead.logits_to_loss` returns (for C1):
for each sample, the mean over that sample's own sequence positions of its
per-position losses, with sentinel `-1` positions contributing `0` but
counted in the denominator. -/
def bertLMHead_per_sample_loss_spec (ce : List ℚ → ℤ → ℚ)
    (logits : List (List (List ℚ))) (lm_label_ids : List (List ℤ)) : List ℚ :=
  List.zipWith (fun ls ts => listMean (crossEntropyNone ce none (-1) ls ts))
    logits lm_label_ids

/-- Embedding of `QuestionAnsweringHead.logits_to_loss(logits, start_position,
end_position)`: the labels are clamped **in place** (`clamp_`) into
`[0, seq_len]` with `seq_len = start_logits.size(1)` serving as the
ignored sentinel; start and end cross-entropies (reduction `"none"`,
`ignore_index=seq_len`) are averaged per sample.  The returned triple is
`(per_sample_loss, start_position, end_position)` where the last two are
the values the input tensors hold after the call (the in-place clamp made
explicit). -/
def questionAnsweringHead_logits_to_loss (ce : List ℚ → ℤ → ℚ)
    (start_logits end_logits : List (List ℚ))
    (start_position end_position : List ℤ) : List ℚ × List ℤ × List ℤ :=
  let ignored_index : ℤ := ((start_logits.get? 0).getD []).length
  let start_position := start_position.map (fun p => max 0 (min p ignored_index))
  let end_position := end_position.map (fun p => max 0 (min p ignored_index))
  let start_loss := crossEntropyNone ce none ignored_index start_logits start_position
  let end_loss := crossEntropyNone ce none ignored_index end_logits end_position
  (List.zipWith (fun a b => (a + b) / 2) start_loss end_loss,
   start_position, end_position)

/-- Embedding of `np.argmax` of a boolean vector: index of the first `true`, and `0`
when no entry is `true` (the maximum is then `false`, first attained at
index `0`). -/
def np_argmax_bool (xs : List Bool) : ℕ := (xs.findIdx? id).getD 0

/-- The index arithmetic of `QuestionAnsweringHead.formatted_preds`
(lines 566-571) for one sample: `shifts = np.argmax(segment_ids > 0)`;
both indices are shifted by `-shifts` with negative results set to `0`;
the end index then gets `+1` for inclusive slicing.  Returns
`(start_idx, end_idx before the +1, end_idx after the +1)`. -/
def qa_shift_idx (segment_ids : List ℤ) (start_idx end_idx : ℕ) : ℕ × ℕ × ℕ :=
  let shifts : ℤ := np_argmax_bool (segment_ids.map (0 < ·))
  let s : ℤ := start_idx - shifts
  let s : ℤ := if s < 0 then 0 else s
  let e : ℤ := end_idx - shifts
  let e : ℤ := if e < 0 then 0 else e
  (s.toNat, e.toNat, (e + 1).toNat)

/-- The per-sample fields of a QA `Sample` that `formatted_preds` reads. -/
structure QASample where
  tokens : List String
  offsets : List ℕ
  question_text : String
  deriving DecidableEq, Repr

/-- One QA prediction record (`end` rendered `stop`); the `probability`
field is the constant string placeholder and is omitted. -/
structure QAPred where
  start : ℕ
  stop : ℕ
  context : String
  label : String
  deriving DecidableEq, Repr

/-- The per-sample body of `QuestionAnsweringHead.formatted_preds`
(lines 576-589): with `(s, _, e) = qa_shift_idx …`, the answer string is
`" ".join(tokens[s:e])` with `" ##"` then `"##"` removed, and the record's
`start`/`end` are `offsets[s]` and `offsets[e]` — `none` models the
`IndexError` a Python list lookup raises when the index is out of range. -/
def qa_formatted_one (sample : QASample) (segment_ids : List ℤ)
    (raw_start raw_end : ℕ) : Option QAPred :=
  let se := qa_shift_idx segment_ids raw_start raw_end
  let s := se.1
  let e := se.2.2
  let answer := " ".intercalate ((sample.tokens.drop s).take (e - s))
  let answer := pyReplace (pyReplace answer " ##" "") "##" ""
  match sample.offsets.get? s, sample.offsets.get? e with
  | some st, some en => some ⟨st, en, sample.question_text, answer⟩
  | _, _ => none

/-- The artifacts a head's `save(save_dir, head_num)` writes into the
directory: the weights file `prediction_head_{n}.bin` and/or the config
file `prediction_head_{n}_config.json`. -/
inductive Artifact where
  | weights (head_num : ℕ)
  | config (head_num : ℕ)
  deriving DecidableEq, Repr

/-- Embedding of `PredictionHead.save`: `torch.save(state_dict)` to the weights file,
then `save_config` — both artifacts are written. -/
def predictionHead_save (head_num : ℕ) : List Artifact :=
  [.weights head_num, .config head_num]

/-- Embedding of `BertLMHead.save`, which overrides `save`: it warns that the weights are not
saved and calls only `save_config` — the config artifact alone. -/
def bertLMHead_save (head_num : ℕ) : List Artifact :=
  [.config head_num]

/-- Error raised by `BertLMHead.load` (a `NotImplementedError`). -/
inductive LoadError where
  | notImplementedError (msg : String)
  deriving DecidableEq, Repr

/-- Embedding of `BertLMHead.load(model_file, config_file)`:
`raise NotImplementedError("BertLMHead does not currently support
loading")`, for every argument pair. -/
def bertLMHead_load (model_file config_file : String) : Except LoadError Unit :=
  .error (.notImplementedError "BertLMHead does not currently support loading")

/-- A concrete per-element loss used to instantiate the abstract
cross-entropy parameter in counterexamples and witnesses: the input's
entry at the target index. -/
def ceLookup : List ℚ → ℤ → ℚ := fun l t => (l.get? t.toNat).getD 0

/-! Helper lemmas -/

theorem initial_token_only_nil (mask : List Bool) :
    initial_token_only ([] : List α) mask = [] := by
  simp [initial_token_only]

theorem initial_token_only_cons (s : α) (seq : List α) (b : Bool) (mask : List Bool) :
    initial_token_only (s :: seq) (b :: mask) =
      if b then s :: initial_token_only seq mask else initial_token_only seq mask := rfl

theorem initial_token_only_eq_maskSubsequence :
    ∀ (seq : List α) (mask : List Bool),
      initial_token_only seq mask = maskSubsequence seq mask
  | _, [] => by simp [initial_token_only, maskSubsequence]
  | [], _ :: _ => by simp [initial_token_only, maskSubsequence]
  | s :: seq, b :: mask => by
      rw [initial_token_only_cons, maskSubsequence]
      rw [initial_token_only_eq_maskSubsequence seq mask]

theorem maskSubsequence_length :
    ∀ (seq : List α) (mask : List Bool), mask.length = seq.length →
      (maskSubsequence seq mask).length = mask.countP (· = true)
  | _, [], _ => by simp [maskSubsequence]
  | [], _ :: _, h => by simp at h
  | s :: seq, b :: mask, h => by
      simp only [List.length_cons, Nat.add_right_cancel_iff] at h
      rw [maskSubsequence, List.countP_cons]
      cases b <;>
        simp [maskSubsequence_length seq mask h]

theorem map_id_of_mem {f : α → α} :
    ∀ (l : List α), (∀ x ∈ l, f x = x) → l.map f = l
  | [], _ => rfl
  | x :: xs, h => by
      rw [List.map_cons, h x (List.mem_cons_self x xs),
        map_id_of_mem xs fun y hy => h y (List.mem_cons_of_mem _ hy)]

/-- Once a span is open, the loop of `word_spans` can no longer fail; it
emits one span per word-initial token still to come (plus the open one),
every emitted span is a real span, and the emitted start offsets are the
open span's start followed by the word-initial offsets in token order. -/
theorem word_spans_aux_some :
    ∀ (l : List (String × ℕ × Bool)) (sp : Span),
      ∃ spans, word_spans_aux l (some sp) = .ok spans ∧
        spans.length = l.countP (fun t => t.2.2) + 1 ∧
        (∀ o ∈ spans, o.isSome) ∧
        spanStarts spans = sp.start :: initialOffsets l
  | [], sp => ⟨[some sp], rfl, by simp [initialOffsets, spanStarts]⟩
  | (token, offset, start_of_word) :: rest, sp => by
      by_cases hw : start_of_word
      · obtain ⟨spans, hok, hlen, hsome, hstarts⟩ :=
          word_spans_aux_some rest ⟨offset, offset + token.length⟩
        refine ⟨some sp :: spans, ?_, ?_, ?_, ?_⟩
        · simp [word_spans_aux, hw, hok]
        · simp [hlen, List.countP_cons, hw]
        · simpa using hsome
        · simp [spanStarts, initialOffsets, hw] at hstarts ⊢
          simpa [spanStarts, initialOffsets] using hstarts
      · obtain ⟨spans, hok, hlen, hsome, hstarts⟩ :=
          word_spans_aux_some rest ⟨sp.start, offset + (pyReplace token "##" "").length⟩
        refine ⟨spans, ?_, ?_, hsome, ?_⟩
        · simp [word_spans_aux, hw, hok]
        · simp [hlen, List.countP_cons, hw]
        · simp [initialOffsets, hw]
          simpa [initialOffsets] using hstarts

/-! Claims -/

/-- C4 (confirmed): `initial_token_only` returns exactly the subsequence of
elements at positions where the mask is true, in original relative order
(`maskSubsequence`, written from the spec's words); for equal-length
inputs the output length is the number of true flags; and on
`[a,b,c,d,e]` with mask `[true,false,true,true,false]` it yields
`[a,c,d]`. -/
theorem C4_initial_token_only_filters (seq : List α) (initial_mask : List Bool)
    (h : initial_mask.length = seq.length) :
    initial_token_only seq initial_mask = maskSubsequence seq initial_mask ∧
    (initial_token_only seq initial_mask).length = initial_mask.countP (· = true) ∧
    ∀ (a b c d e : α),
      initial_token_only [a, b, c, d, e] [true, false, true, true, false] = [a, c, d] := by
  refine ⟨initial_token_only_eq_maskSubsequence seq initial_mask, ?_, ?_⟩
  · rw [initial_token_only_eq_maskSubsequence]
    exact maskSubsequence_length seq initial_mask h
  · intro a b c d e
    simp [initial_token_only_cons, initial_token_only_nil]

/-- Witness for C4 at `seq = [1,2,3,4,5]`, `mask = [true,false,true,true,false]`. -/
theorem C4_initial_token_only_filters_witness :
    ([true, false, true, true, false] : List Bool).length = ([1, 2, 3, 4, 5] : List ℕ).length ∧
    (initial_token_only [1, 2, 3, 4, 5] [true, false, true, true, false] =
        maskSubsequence [1, 2, 3, 4, 5] [true, false, true, true, false] ∧
      (initial_token_only ([1, 2, 3, 4, 5] : List ℕ)
          [true, false, true, true, false]).length =
        ([true, false, true, true, false] : List Bool).countP (· = true) ∧
      ∀ (a b c d e : ℕ),
        initial_token_only [a, b, c, d, e] [true, false, true, true, false] = [a, c, d]) :=
  ⟨by decide, C4_initial_token_only_filters [1, 2, 3, 4, 5]
    [true, false, true, true, false] (by decide)⟩

/-- C5 counterexample: on tokens `["Jo","##hn","Smith"]`, offsets `[0,2,8]`,
word-initial flags `[true,false,true]`, the span reconstruction of
`TokenClassificationHead.formatted_preds` produces `[{0,4},{8,13}]` — the
continuation token `"##hn"` sets the first span's end to
`2 + len("hn") = 4` — and not the claimed `[{0,7},{8,13}]`. -/
theorem C5_span_example_counterexample :
    word_spans [("Jo", 0, true), ("##hn", 2, false), ("Smith", 8, true)] =
      .ok [some ⟨0, 4⟩, some ⟨8, 13⟩] ∧
    word_spans [("Jo", 0, true), ("##hn", 2, false), ("Smith", 8, true)] ≠
      .ok [some ⟨0, 7⟩, some ⟨8, 13⟩] := by decide

/-- C5 (corrected): the span-reconstruction step, applied to tokens
`["Jo","##hn","Smith"]`, offsets `[0,2,8]`, word-initial flags
`[true,false,true]`, produces the character spans `[{0,4},{8,13}]` (the
first span ends at `offset 2 + length "hn" = 4`). -/
theorem C5_span_example_amended :
    word_spans [("Jo", 0, true), ("##hn", 2, false), ("Smith", 8, true)] =
      .ok [some ⟨0, 4⟩, some ⟨8, 13⟩] := by decide

/-- C6 (confirmed): for segment markers `[0,0,0,1,1,1,1]` the shift is 3,
so raw start 4 / raw end 5 become shifted start 1, shifted end 2, sliced
end 3; in general each shifted index is `(raw - shift).toNat`, i.e.
negative results are clamped to zero, and the sliced end is the shifted
end plus one. -/
theorem C6_qa_shift_example :
    qa_shift_idx [0, 0, 0, 1, 1, 1, 1] 4 5 = (1, 2, 3) ∧
    ∀ (segment_ids : List ℤ) (rs re : ℕ),
      (qa_shift_idx segment_ids rs re).1 =
        ((rs : ℤ) - np_argmax_bool (segment_ids.map (0 < ·))).toNat ∧
      (qa_shift_idx segment_ids rs re).2.1 =
        ((re : ℤ) - np_argmax_bool (segment_ids.map (0 < ·))).toNat ∧
      (qa_shift_idx segment_ids rs re).2.2 =
        (qa_shift_idx segment_ids rs re).2.1 + 1 := by
  refine ⟨by decide, ?_⟩
  intro segment_ids rs re
  simp only [qa_shift_idx]
  refine ⟨?_, ?_, ?_⟩ <;> split <;> omega

/-- C8 (confirmed): `BertLMHead.save` writes the config artifact only —
no weights artifact for any index — and `BertLMHead.load` always fails
with the explicit `NotImplementedError`. -/
theorem C8_bertlm_save_only_config_load_fails (head_num : ℕ)
    (model_file config_file : String) :
    bertLMHead_save head_num = [.config head_num] ∧
    (∀ n, Artifact.weights n ∉ bertLMHead_save head_num) ∧
    bertLMHead_load model_file config_file =
      .error (.notImplementedError "BertLMHead does not currently support loading") := by
  refine ⟨rfl, ?_, rfl⟩
  intro n
  simp [bertLMHead_save]

/-- C10 (confirmed): when the tokenized arrays are non-empty and the first
word-initial flag is true (expressed by the shape `(tok, off, true) :: rest`),
span reconstruction succeeds, emits exactly one span per word-initial
token, every emitted span is a real span (no `None`), and the emitted
spans follow token order (their start offsets are the word-initial tokens'
offsets in order); a sample whose first flag is false fails (it extends a
span that was never opened), and a sample with no tokens yields the list
`[None]` — a null entry instead of a span record. -/
theorem C10_span_reconstruction_precondition (tok : String) (off : ℕ)
    (rest : List (String × ℕ × Bool)) :
    (∃ spans, word_spans ((tok, off, true) :: rest) = .ok spans ∧
       spans.length = ((tok, off, true) :: rest).countP (fun t => t.2.2) ∧
       (∀ o ∈ spans, o.isSome) ∧
       spanStarts spans = initialOffsets ((tok, off, true) :: rest)) ∧
    word_spans [("x", 0, false)] = .error .noneSpan ∧
    word_spans [] = .ok [none] := by
  refine ⟨?_, by decide, by decide⟩
  obtain ⟨spans, hok, hlen, hsome, hstarts⟩ :=
    word_spans_aux_some rest ⟨off, off + tok.length⟩
  refine ⟨spans, ?_, ?_, hsome, ?_⟩
  · simpa [word_spans, word_spans_aux] using hok
  · simp [hlen, List.countP_cons]
  · simpa [initialOffsets] using hstarts

/-- Whenever `qa_formatted_one` produces a record, its `start`/`end`
fields are the offsets at the shifted start and sliced-end indices and its
label is the joined, marker-stripped token slice between them. -/
theorem qa_formatted_one_fields (sample : QASample) (segment_ids : List ℤ)
    (raw_start raw_end : ℕ) (p : QAPred)
    (h : qa_formatted_one sample segment_ids raw_start raw_end = some p) :
    sample.offsets.get? (qa_shift_idx segment_ids raw_start raw_end).1 = some p.start ∧
    sample.offsets.get? (qa_shift_idx segment_ids raw_start raw_end).2.2 = some p.stop ∧
    p.label = pyReplace (pyReplace
      (" ".intercalate
        ((sample.tokens.drop (qa_shift_idx segment_ids raw_start raw_end).1).take
          ((qa_shift_idx segment_ids raw_start raw_end).2.2 -
            (qa_shift_idx segment_ids raw_start raw_end).1)))
      " ##" "") "##" "" := by
  revert h
  simp only [qa_formatted_one]
  cases hs : sample.offsets.get? (qa_shift_idx segment_ids raw_start raw_end).1 with
  | none => intro h; cases h
  | some st =>
    cases he : sample.offsets.get? (qa_shift_idx segment_ids raw_start raw_end).2.2 with
    | none => intro h; cases h
    | some en =>
      intro h
      injection h with h2
      subst h2
      exact ⟨rfl, rfl, rfl⟩

/-- C2 counterexample: sample with offsets `[10,20,30]`, segment markers
`[0,1,1]` (shift 1), raw predicted start 1 and raw predicted end 1; the
claim says the record's `start` is looked up at the unshifted index 1,
i.e. `offsets[1] = 20`, but the code produces `start = 10 = offsets[0]`,
the lookup at the shifted index `1 - 1 = 0`. -/
theorem C2_offsets_unshifted_counterexample :
    qa_formatted_one ⟨["q", "a", "b"], [10, 20, 30], "Q?"⟩ [0, 1, 1] 1 1 =
      some ⟨10, 20, "Q?", "q"⟩ ∧
    (qa_shift_idx [0, 1, 1] 1 1).1 = 0 ∧
    ([10, 20, 30] : List ℕ).get? 1 = some 20 ∧
    (10 : ℕ) ≠ 20 := by decide

/-- C2 (corrected): the record's character offsets are looked up with the
**shifted** indices — the same index arrays used to slice the answer
tokens: whenever `formatted_preds` produces a record, its `start` is
`offsets[shifted start]`, its `end` is `offsets[shifted end + 1]`, and its
answer string is built from the tokens between those same shifted
indices. -/
theorem C2_offsets_use_shifted_indices (sample : QASample)
    (segment_ids : List ℤ) (raw_start raw_end : ℕ) (p : QAPred)
    (h : qa_formatted_one sample segment_ids raw_start raw_end = some p) :
    sample.offsets.get? (qa_shift_idx segment_ids raw_start raw_end).1 = some p.start ∧
    sample.offsets.get? (qa_shift_idx segment_ids raw_start raw_end).2.2 = some p.stop ∧
    p.label = pyReplace (pyReplace
      (" ".intercalate
        ((sample.tokens.drop (qa_shift_idx segment_ids raw_start raw_end).1).take
          ((qa_shift_idx segment_ids raw_start raw_end).2.2 -
            (qa_shift_idx segment_ids raw_start raw_end).1)))
      " ##" "") "##" "" :=
  qa_formatted_one_fields sample segment_ids raw_start raw_end p h

/-- Witness for C2's corrected statement at a concrete sample where the
record exists. -/
theorem C2_offsets_use_shifted_indices_witness :
    qa_formatted_one ⟨["q", "a", "b"], [10, 20, 30], "Q?"⟩ [0, 1, 1] 1 1 =
      some ⟨10, 20, "Q?", "q"⟩ ∧
    ((⟨["q", "a", "b"], [10, 20, 30], "Q?"⟩ : QASample).offsets.get?
        (qa_shift_idx [0, 1, 1] 1 1).1 = some (10 : ℕ) ∧
      (⟨["q", "a", "b"], [10, 20, 30], "Q?"⟩ : QASample).offsets.get?
        (qa_shift_idx [0, 1, 1] 1 1).2.2 = some (20 : ℕ) ∧
      (⟨10, 20, "Q?", "q"⟩ : QAPred).label = pyReplace (pyReplace
        (" ".intercalate
          (((⟨["q", "a", "b"], [10, 20, 30], "Q?"⟩ : QASample).tokens.drop
              (qa_shift_idx [0, 1, 1] 1 1).1).take
            ((qa_shift_idx [0, 1, 1] 1 1).2.2 - (qa_shift_idx [0, 1, 1] 1 1).1)))
        " ##" "") "##" "") :=
  ⟨by decide, C2_offsets_use_shifted_indices ⟨["q", "a", "b"], [10, 20, 30], "Q?"⟩
    [0, 1, 1] 1 1 ⟨10, 20, "Q?", "q"⟩ (by decide)⟩

/-- C9 (confirmed): the sliced end index is the shifted end plus one, so a
produced record's `end` field comes from the offsets table at the position
one past the last answer token; and on the concrete sample with offsets
`[0,5]` (last valid index 1), segment markers `[1,1]`, raw end 1 — whose
shifted end index equals that last valid index — the lookup at index 2 is
out of range and `formatted_preds` fails (`IndexError`) instead of
returning a record. -/
theorem C9_qa_end_offset_out_of_range (sample : QASample)
    (segment_ids : List ℤ) (raw_start raw_end : ℕ) (p : QAPred)
    (h : qa_formatted_one sample segment_ids raw_start raw_end = some p) :
    ((qa_shift_idx segment_ids raw_start raw_end).2.2 =
        (qa_shift_idx segment_ids raw_start raw_end).2.1 + 1 ∧
      sample.offsets.get?
        ((qa_shift_idx segment_ids raw_start raw_end).2.1 + 1) = some p.stop) ∧
    (qa_formatted_one ⟨["a", "b"], [0, 5], "Q?"⟩ [1, 1] 0 1 = none ∧
      (qa_shift_idx [1, 1] 0 1).2.1 = ([0, 5] : List ℕ).length - 1) := by
  have hplus : (qa_shift_idx segment_ids raw_start raw_end).2.2 =
      (qa_shift_idx segment_ids raw_start raw_end).2.1 + 1 := by
    simp only [qa_shift_idx]
    split <;> omega
  refine ⟨⟨hplus, ?_⟩, by decide, by decide⟩
  rw [← hplus]
  exact (qa_formatted_one_fields sample segment_ids raw_start raw_end p h).2.1

/-- Witness for C9 at a concrete sample where the record exists. -/
theorem C9_qa_end_offset_out_of_range_witness :
    qa_formatted_one ⟨["q", "a", "b"], [10, 20, 30], "Q?"⟩ [0, 1, 1] 1 1 =
      some ⟨10, 20, "Q?", "q"⟩ ∧
    (((qa_shift_idx [0, 1, 1] 1 1).2.2 = (qa_shift_idx [0, 1, 1] 1 1).2.1 + 1 ∧
        (⟨["q", "a", "b"], [10, 20, 30], "Q?"⟩ : QASample).offsets.get?
          ((qa_shift_idx [0, 1, 1] 1 1).2.1 + 1) = some (20 : ℕ)) ∧
      (qa_formatted_one ⟨["a", "b"], [0, 5], "Q?"⟩ [1, 1] 0 1 = none ∧
        (qa_shift_idx [1, 1] 0 1).2.1 = ([0, 5] : List ℕ).length - 1)) :=
  ⟨by decide, C9_qa_end_offset_out_of_range ⟨["q", "a", "b"], [10, 20, 30], "Q?"⟩
    [0, 1, 1] 1 1 ⟨10, 20, "Q?", "q"⟩ (by decide)⟩

/-- C3 counterexample: `QuestionAnsweringHead.logits_to_loss` mutates its
inputs — with `seq_len = 2` and start label `5`, the in-place `clamp_`
leaves the start-position tensor holding `[2]`, not the `[5]` it held
before the call. -/
theorem C3_no_mutation_counterexample :
    (questionAnsweringHead_logits_to_loss ceLookup [[1, 2]] [[1, 2]] [5] [0]).2.1 ≠
      [5] := by decide

/-- C3 (corrected): every head operation other than save/load leaves its
inputs unchanged **except** `QuestionAnsweringHead.logits_to_loss`, which
clamps the start/end position tensors in place into `[0, seq_len]`
(`seq_len = start_logits.size(1)`); position tensors whose entries already
lie in that range are left holding their original values. -/
theorem C3_qa_clamps_positions_in_place (ce : List ℚ → ℤ → ℚ)
    (start_logits end_logits : List (List ℚ))
    (start_position end_position : List ℤ)
    (hs : ∀ p ∈ start_position, 0 ≤ p ∧ p ≤ (((start_logits.get? 0).getD []).length : ℤ))
    (he : ∀ p ∈ end_position, 0 ≤ p ∧ p ≤ (((start_logits.get? 0).getD []).length : ℤ)) :
    ((questionAnsweringHead_logits_to_loss ce start_logits end_logits
        start_position end_position).2.1 =
      start_position.map
        (fun p => max 0 (min p (((start_logits.get? 0).getD []).length : ℤ))) ∧
     (questionAnsweringHead_logits_to_loss ce start_logits end_logits
        start_position end_position).2.2 =
      end_position.map
        (fun p => max 0 (min p (((start_logits.get? 0).getD []).length : ℤ)))) ∧
    (questionAnsweringHead_logits_to_loss ce start_logits end_logits
        start_position end_position).2.1 = start_position ∧
    (questionAnsweringHead_logits_to_loss ce start_logits end_logits
        start_position end_position).2.2 = end_position := by
  refine ⟨⟨rfl, rfl⟩, ?_, ?_⟩ <;>
    simp only [questionAnsweringHead_logits_to_loss]
  · exact map_id_of_mem start_position fun p hp => by have := hs p hp; omega
  · exact map_id_of_mem end_position fun p hp => by have := he p hp; omega

/-- C7 (confirmed): on a batch of `n` samples, both
`TextClassificationHead.logits_to_loss` and
`QuestionAnsweringHead.logits_to_loss` return an unreduced loss of length
exactly `n`, and each QA entry is the average of that sample's start loss
and end loss (computed on the clamped positions with the `seq_len`
sentinel ignored). -/
theorem C7_loss_is_per_sample (ce : List ℚ → ℤ → ℚ)
    (class_weights : Option (List ℚ)) (n : ℕ)
    (logits : List (List ℚ)) (label_ids : List ℤ)
    (start_logits end_logits : List (List ℚ))
    (start_position end_position : List ℤ)
    (h1 : logits.length = n) (h2 : label_ids.length = n)
    (h3 : start_logits.length = n) (h4 : end_logits.length = n)
    (h5 : start_position.length = n) (h6 : end_position.length = n) :
    (textClassificationHead_logits_to_loss ce class_weights logits label_ids).length = n ∧
    (questionAnsweringHead_logits_to_loss ce start_logits end_logits
        start_position end_position).1.length = n ∧
    ∀ i : ℕ,
      let ig : ℤ := ((start_logits.get? 0).getD []).length
      let start_loss := crossEntropyNone ce none ig start_logits
        (start_position.map fun p => max 0 (min p ig))
      let end_loss := crossEntropyNone ce none ig end_logits
        (end_position.map fun p => max 0 (min p ig))
      (questionAnsweringHead_logits_to_loss ce start_logits end_logits
          start_position end_position).1[i]? =
        start_loss[i]?.bind fun a => end_loss[i]?.map fun b => (a + b) / 2 := by
  refine ⟨?_, ?_, ?_⟩
  · simp [textClassificationHead_logits_to_loss, crossEntropyNone,
      List.length_zipWith, h1, h2]
  · simp [questionAnsweringHead_logits_to_loss, crossEntropyNone,
      List.length_zipWith, h3, h4, h5, h6]
  · intro i
    simp only [questionAnsweringHead_logits_to_loss]
    rw [List.getElem?_zipWith']
    cases (crossEntropyNone ce none (((start_logits.get? 0).getD []).length : ℤ)
        start_logits (start_position.map fun p =>
          max 0 (min p (((start_logits.get? 0).getD []).length : ℤ))))[i]? <;>
      simp

/-- Witness for C7 at a concrete batch of size 1. -/
theorem C7_loss_is_per_sample_witness :
    ([[1, 2]] : List (List ℚ)).length = 1 ∧ ([0] : List ℤ).length = 1 ∧
    ((textClassificationHead_logits_to_loss ceLookup none [[1, 2]] [0]).length = 1 ∧
      (questionAnsweringHead_logits_to_loss ceLookup [[1, 2]] [[1, 2]] [0] [1]).1.length = 1 ∧
      ∀ i : ℕ,
        let ig : ℤ := ((([[1, 2]] : List (List ℚ)).get? 0).getD []).length
        let start_loss := crossEntropyNone ceLookup none ig [[1, 2]]
          (([0] : List ℤ).map fun p => max 0 (min p ig))
        let end_loss := crossEntropyNone ceLookup none ig [[1, 2]]
          (([1] : List ℤ).map fun p => max 0 (min p ig))
        (questionAnsweringHead_logits_to_loss ceLookup [[1, 2]] [[1, 2]] [0] [1]).1[i]? =
          start_loss[i]?.bind fun a => end_loss[i]?.map fun b => (a + b) / 2) :=
  ⟨rfl, rfl, C7_loss_is_per_sample ceLookup none 1 [[1, 2]] [0] [[1, 2]] [[1, 2]]
    [0] [1] rfl rfl rfl rfl rfl rfl⟩

/-- C1 (code bug): `BertLMHead.logits_to_loss` is named and documented as a
per-sample loss (base-class contract: "per sample loss", shape
`[batch_size]`), and the spec reads it as averaging each sample's own
positions — but `view(-1, batch_size)` reinterprets the row-major
`[batch, seq_len]` buffer, so entry `j` averages the flat positions
congruent to `j` mod `batch_size`, mixing samples.  At batch 2, seq_len 3
with per-position losses `[1,2,3]` (sample 0) and `[10,20,30]` (sample 1)
the code returns `[8,14]` while the claimed per-sample averages are
`[2,20]`.  At batch 1 the two agree, and a `-1` sentinel position
contributes `0` while still counting in the denominator (mean of
`[3,0,6]` is `3`). -/
theorem C1_lm_loss_mixes_samples :
    bertLMHead_logits_to_loss ceLookup [[[1], [2], [3]], [[10], [20], [30]]]
      [[0, 0, 0], [0, 0, 0]] = [8, 14] ∧
    bertLMHead_per_sample_loss_spec ceLookup [[[1], [2], [3]], [[10], [20], [30]]]
      [[0, 0, 0], [0, 0, 0]] = [2, 20] ∧
    (8 : ℚ) ≠ 2 ∧
    bertLMHead_logits_to_loss ceLookup [[[3], [7], [6]]] [[0, -1, 0]] = [3] ∧
    bertLMHead_per_sample_loss_spec ceLookup [[[3], [7], [6]]] [[0, -1, 0]] = [3] := by
  refine ⟨?_, ?_, by norm_num, ?_, ?_⟩ <;>
    norm_num [bertLMHead_logits_to_loss, bertLMHead_per_sample_loss_spec,
      crossEntropyNone, listMean, viewRows, ceLookup, List.range_succ,
      List.filterMap_cons, List.getElem?_cons_zero, List.getElem?_cons_succ]

/-- Witness for C3's corrected statement: in-range positions survive the
call unchanged. -/
theorem C3_qa_clamps_positions_in_place_witness :
    (∀ p ∈ ([1] : List ℤ), 0 ≤ p ∧
      p ≤ (((([[1, 2]] : List (List ℚ)).get? 0).getD []).length : ℤ)) ∧
    (∀ p ∈ ([0] : List ℤ), 0 ≤ p ∧
      p ≤ (((([[1, 2]] : List (List ℚ)).get? 0).getD []).length : ℤ)) ∧
    (((questionAnsweringHead_logits_to_loss ceLookup [[1, 2]] [[1, 2]] [1] [0]).2.1 =
        ([1] : List ℤ).map (fun p => max 0 (min p
          (((([[1, 2]] : List (List ℚ)).get? 0).getD []).length : ℤ))) ∧
      (questionAnsweringHead_logits_to_loss ceLookup [[1, 2]] [[1, 2]] [1] [0]).2.2 =
        ([0] : List ℤ).map (fun p => max 0 (min p
          (((([[1, 2]] : List (List ℚ)).get? 0).getD []).length : ℤ)))) ∧
     (questionAnsweringHead_logits_to_loss ceLookup [[1, 2]] [[1, 2]] [1] [0]).2.1 = [1] ∧
     (questionAnsweringHead_logits_to_loss ceLookup [[1, 2]] [[1, 2]] [1] [0]).2.2 = [0]) :=
  ⟨by decide, by decide,
    C3_qa_clamps_positions_in_place ceLookup [[1, 2]] [[1, 2]] [1] [0]
      (by decide) (by decide)⟩
